import Mathlib

/-!
Shallow embedding of the library-catalog core of nestjs-api-demo:
the Book store (`src/books/books.service.ts`, TypeORM variant), the
Author store (`src/authors/authors.service.ts`, in-memory variant — the
only `AuthorsService` present in the repository), and the Borrowing
lifecycle manager (`src/borrowings/borrowings.service.ts`).

Modelling conventions:
- Collections ("tables") are Lean lists kept in insertion order; generated
  primary keys are modelled by `nextBookId` / `nextBorrowingId` counters.
- Dates are integers at date granularity (days); an operation that calls
  `new Date()` receives the current instant as an explicit `now` argument.
- A thrown NestJS exception is modelled by the `Except`-style result paired
  with the (unchanged, unless a write already happened) state:
  every operation returns `result × state`.
- The `@Column({ unique: true }) isbn` declaration of
  `src/books/entities/book.entity.ts` is modelled inside `dbSaveBook` /
  `dbInsertBook`: a save that would leave two distinct rows with the same
  isbn fails with `uniqueViolation`, as Postgres would reject it.
- JavaScript truthiness, where the source relies on it
  (`createBorrowingDto.borrowDays || DEFAULT_BORROW_DAYS`,
  `if (updateBookDto.isbn)`), is translated explicitly: `0` and the empty
  string count as falsy.
-/

deriving instance DecidableEq for Except

/-- Loan lifecycle states of `src/borrowings/entities/borrowing.entity.ts`. -/
inductive BStatus where
  | borrowed
  | overdue
  | returned
deriving DecidableEq, Repr

/-- Row of the `books` table (`src/books/entities/book.entity.ts`). -/
structure Book where
  id : Nat
  title : String
  isbn : String
  authorId : Nat
  publishedYear : Nat
  genre : Option String
  available : Bool
deriving DecidableEq, Repr

/-- Row of the `authors` table (`src/authors/entities/author.entity.ts`). -/
structure Author where
  id : Nat
  firstName : String
  lastName : String
  dateOfBirth : Option Int
  nationality : Option String
  biography : Option String
deriving DecidableEq, Repr

/-- Row of the `borrowings` table (`src/borrowings/entities/borrowing.entity.ts`). -/
structure Borrowing where
  id : Nat
  bookId : Nat
  borrowerName : String
  borrowedDate : Int
  dueDate : Int
  returnedDate : Option Int
  status : BStatus
deriving DecidableEq, Repr

/-- `CreateBookDto` of `src/books/dto/create-book.dto.ts`. -/
structure CreateBookDto where
  title : String
  isbn : String
  authorId : Nat
  publishedYear : Nat
  genre : Option String
  available : Option Bool
deriving DecidableEq, Repr

/-- `UpdateBookDto` (PartialType of `CreateBookDto`): every field optional. -/
structure UpdateBookDto where
  title : Option String
  isbn : Option String
  authorId : Option Nat
  publishedYear : Option Nat
  genre : Option String
  available : Option Bool
deriving DecidableEq, Repr

/-- `CreateBorrowingDto` of `src/borrowings/dto/create-borrowing.dto.ts`
(name-keyed entity fields; `borrowDays` optional). -/
structure CreateBorrowingDto where
  bookId : Nat
  borrowerName : String
  borrowDays : Option Nat
deriving DecidableEq, Repr

/-- Error kinds thrown by the services: `NotFoundException`,
`BadRequestException`, and a storage-level duplicate-key rejection coming
from the `unique: true` isbn column. -/
inductive LibError where
  | notFound
  | badRequest
  | uniqueViolation
deriving DecidableEq, Repr

/-- Combined persistent state of the books and borrowings tables, with the
generated-key counters. -/
structure LibState where
  books : List Book
  borrowings : List Borrowing
  nextBookId : Nat
  nextBorrowingId : Nat
deriving DecidableEq, Repr

/-- The empty database, with Postgres sequences starting at 1. -/
def initialState : LibState :=
  { books := [], borrowings := [], nextBookId := 1, nextBorrowingId := 1 }

/-- Replace the first row whose `id` matches `nb.id` (TypeORM `save` of an
existing entity updates the row with that primary key). -/
def replaceBook : List Book → Book → List Book
  | [], _ => []
  | b :: bs, nb => if b.id == nb.id then nb :: bs else b :: replaceBook bs nb

/-- Replace the first borrowing row whose `id` matches `nb.id`. -/
def replaceBorrowing : List Borrowing → Borrowing → List Borrowing
  | [], _ => []
  | b :: bs, nb => if b.id == nb.id then nb :: bs else b :: replaceBorrowing bs nb

/-- Storage-level duplicate-isbn test for a candidate row `nb`: true when
some other row (different primary key) already holds the same isbn. -/
def isbnClash (bs : List Book) (nb : Book) : Bool :=
  bs.any (fun b => b.isbn == nb.isbn && !(b.id == nb.id))

/-- TypeORM `save` of an existing Book row, enforcing the
`@Column({ unique: true })` isbn constraint of `book.entity.ts`. -/
def dbSaveBook (bs : List Book) (nb : Book) : Except LibError (List Book) :=
  if isbnClash bs nb then .error .uniqueViolation
  else .ok (replaceBook bs nb)

/-- TypeORM `save` of a fresh Book row (insert), enforcing the same unique
isbn constraint. -/
def dbInsertBook (bs : List Book) (nb : Book) : Except LibError (List Book) :=
  if isbnClash bs nb then .error .uniqueViolation
  else .ok (bs ++ [nb])

/-- The Book row `create` persists: generated id, `available` defaulted to
true (`createBookDto.available ?? true`). -/
def newBookRow (s : LibState) (dto : CreateBookDto) : Book :=
  { id := s.nextBookId, title := dto.title, isbn := dto.isbn,
    authorId := dto.authorId, publishedYear := dto.publishedYear,
    genre := dto.genre, available := dto.available.getD true }

/-- `BooksService.create`: reject a duplicate isbn with BadRequest, default
`available` to true, insert with a generated id. -/
def booksCreate (s : LibState) (dto : CreateBookDto) :
    Except LibError Book × LibState :=
  if s.books.any (fun b => b.isbn == dto.isbn) then
    (.error .badRequest, s)
  else
    let nb : Book := newBookRow s dto
    match dbInsertBook s.books nb with
    | .error e => (.error e, s)
    | .ok bs' =>
      (.ok nb, { s with books := bs', nextBookId := s.nextBookId + 1 })

/-- Merge an `UpdateBookDto` into a Book row (`Object.assign(book, dto)`:
only the keys present in the patch are assigned). -/
def applyBookPatch (b : Book) (p : UpdateBookDto) : Book :=
  { b with
    title := p.title.getD b.title
    isbn := p.isbn.getD b.isbn
    authorId := p.authorId.getD b.authorId
    publishedYear := p.publishedYear.getD b.publishedYear
    genre := match p.genre with | some g => some g | none => b.genre
    available := p.available.getD b.available }

/-- JS-truthiness of the patch isbn (`if (updateBookDto.isbn)`): present and
nonempty. -/
def isbnTruthy (p : UpdateBookDto) : Bool :=
  !(p.isbn.getD "" == "")

/-- `BooksService.update`: NotFound when the id is absent; when the patch
carries a (truthy) isbn, reject with BadRequest if another book already has
it; otherwise merge and save. -/
def booksUpdate (s : LibState) (id : Nat) (p : UpdateBookDto) :
    Except LibError Book × LibState :=
  match s.books.find? (fun b => b.id == id) with
  | none => (.error .notFound, s)
  | some book =>
    if isbnTruthy p &&
        s.books.any (fun b => b.isbn == p.isbn.getD "" && !(b.id == id)) then
      (.error .badRequest, s)
    else
      let merged := applyBookPatch book p
      match dbSaveBook s.books merged with
      | .error e => (.error e, s)
      | .ok bs' => (.ok merged, { s with books := bs' })

/-- Remove the first Book row with the given id. -/
def removeFirstBook : List Book → Nat → List Book
  | [], _ => []
  | b :: bs, id => if b.id == id then bs else b :: removeFirstBook bs id

/-- `BooksService.remove`: NotFound when absent, otherwise delete; no guard
against open borrowings. -/
def booksRemove (s : LibState) (id : Nat) : Except LibError Unit × LibState :=
  match s.books.find? (fun b => b.id == id) with
  | none => (.error .notFound, s)
  | some _ => (.ok (), { s with books := removeFirstBook s.books id })

/-- `BooksService.findAll`: the whole table, no ordering clause, no
pagination. -/
def booksFindAll (s : LibState) : List Book :=
  s.books

/-- `BooksService.findByAuthor`. -/
def booksFindByAuthor (s : LibState) (authorId : Nat) : List Book :=
  s.books.filter (fun b => b.authorId == authorId)

/-- Check that `needle` starts `hay` (character lists). -/
def listStartsWith : List Char → List Char → Bool
  | [], _ => true
  | _ :: _, [] => false
  | n :: ns, h :: hs => n == h && listStartsWith ns hs

/-- Check that `needle` occurs somewhere inside `hay` (character lists),
the semantics of JS `String.includes` / SQL `LIKE '%needle%'`. -/
def listContainsSub (needle : List Char) : List Char → Bool
  | [] => needle.isEmpty
  | h :: hs => listStartsWith needle (h :: hs) || listContainsSub needle hs

/-- `BooksService.findByGenre`: case-insensitive substring match on the
genre column; rows with no genre never match. -/
def booksFindByGenre (s : LibState) (genre : String) : List Book :=
  s.books.filter (fun b =>
    match b.genre with
    | none => false
    | some g => listContainsSub genre.toLower.data g.toLower.data)

/-- `BooksService.findAvailable`. -/
def booksFindAvailable (s : LibState) : List Book :=
  s.books.filter (fun b => b.available)

/-- Query parameters of `GET /books` as the controller receives them;
`authorId` is `some` when the query string was present (and nonempty, hence
truthy), `available` is compared verbatim against the string "true". -/
structure BookListQuery where
  authorId : Option Nat
  genre : Option String
  available : Option String
deriving DecidableEq, Repr

/-- `BooksController.findAll` (`src/books/books.controller.ts`): dispatch to
exactly one service query with priority authorId, then genre, then
available === 'true', then the unfiltered list. -/
def booksControllerFindAll (s : LibState) (q : BookListQuery) : List Book :=
  if q.authorId.isSome then booksFindByAuthor s (q.authorId.getD 0)
  else if !(q.genre.getD "" == "") then booksFindByGenre s (q.genre.getD "")
  else if q.available == some "true" then booksFindAvailable s
  else booksFindAll s

/-- Remove the first Author row with the given id (`Array.splice` at
`findIndex`). -/
def removeFirstAuthor : List Author → Nat → List Author
  | [], _ => []
  | a :: as, id => if a.id == id then as else a :: removeFirstAuthor as id

/-- `AuthorsService.remove` (in-memory variant, the only one in the
repository): NotFound when the id is absent, otherwise delete the author.
It never consults the books table. -/
def authorsRemove (as : List Author) (id : Nat) :
    Except LibError (List Author) :=
  if as.any (fun a => a.id == id) then .ok (removeFirstAuthor as id)
  else .error .notFound

/-- `DEFAULT_BORROW_DAYS` of `BorrowingsService`. -/
def DEFAULT_BORROW_DAYS : Nat := 14

/-- `createBorrowingDto.borrowDays || DEFAULT_BORROW_DAYS`: unspecified and
the falsy value 0 both coalesce to the default. -/
def effectiveBorrowDays (borrowDays : Option Nat) : Nat :=
  match borrowDays with
  | none => DEFAULT_BORROW_DAYS
  | some d => if d == 0 then DEFAULT_BORROW_DAYS else d

/-- Patch `{ available: false }` sent by `BorrowingsService.borrow`. -/
def availableFalsePatch : UpdateBookDto :=
  { title := none, isbn := none, authorId := none, publishedYear := none,
    genre := none, available := some false }

/-- Patch `{ available: true }` sent by `BorrowingsService.returnBook`. -/
def availableTruePatch : UpdateBookDto :=
  { title := none, isbn := none, authorId := none, publishedYear := none,
    genre := none, available := some true }

/-- The BORROWED row `borrow` persists: `borrowedDate = now`,
`dueDate = now + (borrowDays || 14)`, generated id. -/
def newBorrowingRow (s : LibState) (dto : CreateBorrowingDto) (now : Int) :
    Borrowing :=
  { id := s.nextBorrowingId, bookId := dto.bookId,
    borrowerName := dto.borrowerName, borrowedDate := now,
    dueDate := now + (effectiveBorrowDays dto.borrowDays : Nat),
    returnedDate := none, status := .borrowed }

/-- `BorrowingsService.borrow`: NotFound when the book is absent,
BadRequest when it is unavailable; otherwise persist a BORROWED loan with
`dueDate = now + borrowDays` and then mark the book unavailable. The second
write is not rolled back if it fails (the source has no transaction). -/
def borrow (s : LibState) (dto : CreateBorrowingDto) (now : Int) :
    Except LibError Borrowing × LibState :=
  match s.books.find? (fun b => b.id == dto.bookId) with
  | none => (.error .notFound, s)
  | some book =>
    if !book.available then (.error .badRequest, s)
    else
      let br : Borrowing := newBorrowingRow s dto now
      let s1 : LibState :=
        { s with borrowings := s.borrowings ++ [br],
                 nextBorrowingId := s.nextBorrowingId + 1 }
      match booksUpdate s1 book.id availableFalsePatch with
      | (.ok _, s2) => (.ok br, s2)
      | (.error e, s2) => (.error e, s2)

/-- `BorrowingsService.returnBook`: NotFound when absent, BadRequest when
already RETURNED; otherwise set status RETURNED and `returnedDate = now`,
then best-effort mark the book available (the try/catch swallows a failed
book lookup or save, leaving the books table as it was). -/
def returnBook (s : LibState) (id : Nat) (now : Int) :
    Except LibError Borrowing × LibState :=
  match s.borrowings.find? (fun br => br.id == id) with
  | none => (.error .notFound, s)
  | some br0 =>
    if br0.status == .returned then (.error .badRequest, s)
    else
      let upd : Borrowing :=
        { br0 with status := .returned, returnedDate := some now }
      let s1 : LibState :=
        { s with borrowings := replaceBorrowing s.borrowings upd }
      let s2 := (booksUpdate s1 br0.bookId availableTruePatch).2
      (.ok upd, s2)

/-- One pass of the overdue loop body over a single row: a BORROWED loan
past its due date becomes OVERDUE, every other row is untouched. -/
def sweepOne (now : Int) (br : Borrowing) : Borrowing :=
  if br.status == .borrowed && decide (now > br.dueDate) then
    { br with status := .overdue }
  else br

/-- `BorrowingsService.checkOverdueBooks`: load the BORROWED loans and
transition those past `now` to OVERDUE. Net effect on the table is a map of
`sweepOne` over the rows. -/
def checkOverdueBooks (now : Int) (s : LibState) : LibState :=
  { s with borrowings := s.borrowings.map (sweepOne now) }

/-- Validity of a `CreateBorrowingDto` under the class-validator rules of
`create-borrowing.dto.ts`: `@Min(1)` on bookId, `@IsNotEmpty()` on the
borrower name, and `@Min(1)` on borrowDays when it is supplied. -/
def createBorrowingDtoValid (dto : CreateBorrowingDto) : Prop :=
  1 ≤ dto.bookId ∧ dto.borrowerName ≠ "" ∧
    (match dto.borrowDays with
     | none => True
     | some d => 1 ≤ d)

instance (dto : CreateBorrowingDto) : Decidable (createBorrowingDtoValid dto) := by
  unfold createBorrowingDtoValid
  have : Decidable (match dto.borrowDays with
      | none => True
      | some d => 1 ≤ d) := by
    cases dto.borrowDays <;> exact inferInstance
  exact inferInstance

/-- A loan is open when its status is BORROWED or OVERDUE (spec glossary). -/
def isOpen : BStatus → Bool
  | .borrowed => true
  | .overdue => true
  | .returned => false

/-- Number of open loans against a given book id. -/
def openCount (brs : List Borrowing) (bid : Nat) : Nat :=
  (brs.filter (fun br => br.bookId == bid && isOpen br.status)).length

/-- The core operations named by the spec: book create/update/delete,
borrow, return, and the overdue sweep. -/
inductive Op where
  | createBook (dto : CreateBookDto)
  | updateBook (id : Nat) (p : UpdateBookDto)
  | deleteBook (id : Nat)
  | borrowOp (dto : CreateBorrowingDto) (now : Int)
  | returnOp (id : Nat) (now : Int)
  | sweepOp (now : Int)
deriving DecidableEq, Repr

/-- Apply one core operation, discarding its result (errors leave the state
exactly as the operation returned it). -/
def step (s : LibState) : Op → LibState
  | .createBook dto => (booksCreate s dto).2
  | .updateBook id p => (booksUpdate s id p).2
  | .deleteBook id => (booksRemove s id).2
  | .borrowOp dto now => (borrow s dto now).2
  | .returnOp id now => (returnBook s id now).2
  | .sweepOp now => checkOverdueBooks now s

/-- State reached from the empty database by a sequence of core
operations. -/
def runOps (ops : List Op) : LibState :=
  ops.foldl step initialState

/-- An operation that never overrides a book's `available` flag back to
true through the generic catalog update. -/
def opKeepsAvail : Op → Prop
  | .updateBook _ p => p.available ≠ some true
  | _ => True

instance (op : Op) : Decidable (opKeepsAvail op) := by
  unfold opKeepsAvail
  cases op <;> exact inferInstance

/-- The single filter predicate selected by the controller's dispatch
priority (authorId, then genre, then available === 'true', then none). -/
def prioPred (q : BookListQuery) (b : Book) : Bool :=
  if q.authorId.isSome then b.authorId == q.authorId.getD 0
  else if !(q.genre.getD "" == "") then
    (match b.genre with
     | none => false
     | some g => listContainsSub (q.genre.getD "").toLower.data g.toLower.data)
  else if q.available == some "true" then b.available
  else true

/-- Page of books together with pagination metadata, as the spec describes
the listing result. -/
structure PagedBooks where
  items : List Book
  total : Nat
  totalPages : Nat
deriving DecidableEq, Repr

/-- Insert a book into a list sorted by ascending id. -/
def insertById (b : Book) : List Book → List Book
  | [] => [b]
  | x :: xs => if b.id ≤ x.id then b :: x :: xs else x :: insertById b xs

/-- Sort books by ascending id. -/
def sortById (bs : List Book) : List Book :=
  bs.foldr insertById []

/-- Modelled from the spec: the paginated Book listing of §4.1
(`findAll(filters, pagination)` returning "a page of Books ordered by id
ascending, plus total count and computed total pages", with the
mutually-exclusive filter priority). No such pagination exists in the
source; this definition exists to compare the spec's description with the
code's `booksControllerFindAll`. -/
def booksFindAllSpec (s : LibState) (q : BookListQuery) (page limit : Nat) :
    PagedBooks :=
  let filtered := sortById (s.books.filter (prioPred q))
  { items := (filtered.drop ((page - 1) * limit)).take limit
    total := filtered.length
    totalPages := (filtered.length + limit - 1) / limit }

/-- Well-formedness of the books table that the storage layer guarantees:
distinct primary keys, distinct isbns (the unique column), and every key
below the generator. -/
def InvBooks (bs : List Book) (next : Nat) : Prop :=
  (bs.map Book.id).Nodup ∧ (bs.map Book.isbn).Nodup ∧ ∀ b ∈ bs, b.id < next

/-- The availability-coupling invariant: borrowings reference only
already-generated book ids, every book has at most one open loan, and an
available book has no open loan. -/
def InvOpen (s : LibState) : Prop :=
  (∀ br ∈ s.borrowings, br.bookId < s.nextBookId) ∧
  (∀ b ∈ s.books, openCount s.borrowings b.id ≤ 1) ∧
  (∀ b ∈ s.books, b.available = true → openCount s.borrowings b.id = 0)

/-- Fixture: a create-book request. -/
def bkDto1 : CreateBookDto :=
  { title := "B1", isbn := "111", authorId := 1, publishedYear := 2000,
    genre := some "Fiction", available := none }

/-- Fixture: first borrow request for book 1. -/
def brDto1 : CreateBorrowingDto :=
  { bookId := 1, borrowerName := "N1", borrowDays := none }

/-- Fixture: second borrow request for book 1. -/
def brDto2 : CreateBorrowingDto :=
  { bookId := 1, borrowerName := "N2", borrowDays := none }

/-- Fixture: a borrow request with the falsy `borrowDays = 0`. -/
def brDto0 : CreateBorrowingDto :=
  { bookId := 1, borrowerName := "N1", borrowDays := some 0 }

/-- Operation sequence showing that a catalog-level override of
`available` lets a second open loan through: create, borrow, PATCH the
book back to available, borrow again. -/
def c1Ops : List Op :=
  [.createBook bkDto1, .borrowOp brDto1 0,
   .updateBook 1 availableTruePatch, .borrowOp brDto2 0]

/-- Operation sequence with no availability override: create, borrow,
return, borrow again. -/
def c1GoodOps : List Op :=
  [.createBook bkDto1, .borrowOp brDto1 0, .returnOp 1 1, .borrowOp brDto2 2]

/-- Fixture: a concrete library state with one available book. -/
def bk1 : Book :=
  { id := 1, title := "B1", isbn := "111", authorId := 1,
    publishedYear := 2000, genre := some "Fiction", available := true }

/-- Fixture: the same book, currently unavailable. -/
def bk1Out : Book :=
  { bk1 with available := false }

/-- Fixture: a second book with a different isbn. -/
def bk2 : Book :=
  { id := 2, title := "B2", isbn := "222", authorId := 1,
    publishedYear := 2001, genre := some "Drama", available := true }

/-- Fixture: a third book. -/
def bk3 : Book :=
  { id := 3, title := "B3", isbn := "333", authorId := 2,
    publishedYear := 2002, genre := none, available := false }

/-- Fixture: an open loan on book 1. -/
def brOpen1 : Borrowing :=
  { id := 1, bookId := 1, borrowerName := "N1", borrowedDate := 0,
    dueDate := 14, returnedDate := none, status := .borrowed }

/-- Fixture: a returned loan on book 1. -/
def brDone1 : Borrowing :=
  { id := 1, bookId := 1, borrowerName := "N1", borrowedDate := 0,
    dueDate := 14, returnedDate := some 3, status := .returned }

/-- Fixture: state with one available book and no loans. -/
def stFree : LibState :=
  { books := [bk1], borrowings := [], nextBookId := 2, nextBorrowingId := 1 }

/-- Fixture: state with book 1 unavailable under the open loan. -/
def stLoaned : LibState :=
  { books := [bk1Out], borrowings := [brOpen1],
    nextBookId := 2, nextBorrowingId := 2 }

/-- Fixture: state whose only loan is already returned. -/
def stReturned : LibState :=
  { books := [bk1Out], borrowings := [brDone1],
    nextBookId := 2, nextBorrowingId := 2 }

/-- Fixture: state after returning the loan: book available again. -/
def stAfterReturn : LibState :=
  { books := [bk1], borrowings := [brDone1],
    nextBookId := 2, nextBorrowingId := 2 }

/-- Fixture: three-book state for the listing claims. -/
def st3 : LibState :=
  { books := [bk1, bk2, bk3], borrowings := [],
    nextBookId := 4, nextBorrowingId := 1 }

/-- Fixture: listing query with no filters. -/
def q0 : BookListQuery :=
  { authorId := none, genre := none, available := none }

/-- Fixture: a create request whose isbn collides with `bk1`. -/
def dupDto : CreateBookDto :=
  { title := "X", isbn := "111", authorId := 1, publishedYear := 1999,
    genre := none, available := none }

/-- Fixture: an update patch carrying `bk1`'s isbn. -/
def dupPatch : UpdateBookDto :=
  { title := none, isbn := some "111", authorId := none,
    publishedYear := none, genre := none, available := none }

/-- Fixture: one author, referenced by `bk1`. -/
def author1 : Author :=
  { id := 1, firstName := "F", lastName := "L", dateOfBirth := none,
    nationality := none, biography := none }


/-! ### General lemmas about the embedded operations -/

theorem sweepOne_invol (now : Int) (br : Borrowing) :
    sweepOne now (sweepOne now br) = sweepOne now br := by
  unfold sweepOne
  by_cases h : (br.status == BStatus.borrowed && decide (now > br.dueDate)) = true
  · simp [h]
  · simp [h]

theorem map_sweep_idem (now : Int) (l : List Borrowing) :
    (l.map (sweepOne now)).map (sweepOne now) = l.map (sweepOne now) := by
  induction l with
  | nil => rfl
  | cons h t ih => simp [sweepOne_invol, ih]

theorem removeFirstAuthor_length (as : List Author) (id : Nat)
    (h : as.any (fun a => a.id == id) = true) :
    (removeFirstAuthor as id).length + 1 = as.length := by
  induction as with
  | nil => simp at h
  | cons x t ih =>
    by_cases hx : (x.id == id) = true
    · simp [removeFirstAuthor, hx]
    · have ht : t.any (fun a => a.id == id) = true := by
        simp [List.any_cons, hx] at h
        simp [List.any_eq_true]
        simpa [List.any_eq_true] using h
      simp [removeFirstAuthor, hx, ih ht]

theorem removeFirstAuthor_mem (as : List Author) (id : Nat) :
    ∀ x ∈ removeFirstAuthor as id, x ∈ as := by
  induction as with
  | nil => simp [removeFirstAuthor]
  | cons y t ih =>
    intro x hx
    by_cases hy : (y.id == id) = true
    · simp [removeFirstAuthor, hy] at hx
      exact List.mem_cons_of_mem y hx
    · simp [removeFirstAuthor, hy] at hx
      rcases hx with hx | hx
      · exact hx ▸ List.mem_cons_self y t
      · exact List.mem_cons_of_mem y (ih x hx)

/-! ### Claim theorems -/

/-- C3: calling `returnBook` on a Borrowing whose status is RETURNED fails
with BadRequest and leaves the state (in particular that borrowing's
status and returnedDate) exactly as it was. -/
theorem returnBook_already_returned (s : LibState) (id : Nat) (now : Int)
    (br0 : Borrowing)
    (hf : s.borrowings.find? (fun x => x.id == id) = some br0)
    (hst : br0.status = BStatus.returned) :
    returnBook s id now = (.error .badRequest, s) := by
  unfold returnBook
  rw [hf]
  simp [hst]

/-- Witness for C3 at a concrete state. -/
theorem returnBook_already_returned_witness :
    stReturned.borrowings.find? (fun x => x.id == 1) = some brDone1 ∧
    brDone1.status = BStatus.returned ∧
    returnBook stReturned 1 5 = (.error .badRequest, stReturned) :=
  ⟨by decide, by decide,
    returnBook_already_returned stReturned 1 5 brDone1 (by decide) (by decide)⟩

/-- C4: when the target book exists but is unavailable, `borrow` fails with
BadRequest and mutates nothing: no borrowing is created and the book's
`available` flag (indeed the whole state) is unchanged. -/
theorem borrow_unavailable (s : LibState) (dto : CreateBorrowingDto)
    (now : Int) (book : Book)
    (hfind : s.books.find? (fun b => b.id == dto.bookId) = some book)
    (hav : book.available = false) :
    borrow s dto now = (.error .badRequest, s) := by
  unfold borrow
  rw [hfind]
  simp [hav]

/-- Witness for C4 at a concrete state. -/
theorem borrow_unavailable_witness :
    stLoaned.books.find? (fun b => b.id == brDto2.bookId) = some bk1Out ∧
    bk1Out.available = false ∧
    borrow stLoaned brDto2 0 = (.error .badRequest, stLoaned) :=
  ⟨by decide, by decide,
    borrow_unavailable stLoaned brDto2 0 bk1Out (by decide) (by decide)⟩

/-- C7: running the overdue sweep twice at the same instant equals running
it once, and the sweep body leaves every record that is not BORROWED
(already OVERDUE or RETURNED) untouched. -/
theorem checkOverdueBooks_idempotent (now : Int) (s : LibState) :
    checkOverdueBooks now (checkOverdueBooks now s) = checkOverdueBooks now s ∧
    ∀ br ∈ s.borrowings, br.status ≠ BStatus.borrowed → sweepOne now br = br := by
  constructor
  · simp only [checkOverdueBooks]
    rw [map_sweep_idem now s.borrowings]
  · intro br _ h
    unfold sweepOne
    simp [h]

/-- Witness for C7 at a concrete state. -/
theorem checkOverdueBooks_idempotent_witness :
    checkOverdueBooks 20 (checkOverdueBooks 20 stReturned) =
      checkOverdueBooks 20 stReturned ∧
    brDone1.status ≠ BStatus.borrowed ∧ sweepOne 20 brDone1 = brDone1 :=
  ⟨(checkOverdueBooks_idempotent 20 stReturned).1, by decide,
    (checkOverdueBooks_idempotent 20 stReturned).2 brDone1 (by decide) (by decide)⟩

/-- C6 counterexample: author 1 is referenced by two books (per
`BooksService.findByAuthor`), yet `AuthorsService.remove` succeeds and
deletes the author — there is no referential guard in the code. -/
theorem authorsRemove_no_guard_counterexample :
    (booksFindByAuthor st3 1).length = 2 ∧
    authorsRemove [author1] 1 = .ok [] := by
  constructor
  · decide
  · decide

/-- C6 amended: `AuthorsService.remove` fails only when the author id is
absent (NotFound); whenever the author exists it succeeds regardless of how
many books reference the author, removing one author record and returning a
subset of the original table. The books table is never consulted. -/
theorem authorsRemove_succeeds (as : List Author) (id : Nat) (a : Author)
    (ha : a ∈ as) (hid : a.id = id) :
    ∃ as', authorsRemove as id = .ok as' ∧
      as'.length + 1 = as.length ∧ ∀ x ∈ as', x ∈ as := by
  have hany : as.any (fun a => a.id == id) = true := by
    simp [List.any_eq_true]
    exact ⟨a, ha, hid⟩
  refine ⟨removeFirstAuthor as id, ?_, removeFirstAuthor_length as id hany,
    removeFirstAuthor_mem as id⟩
  unfold authorsRemove
  simp [hany]

/-- Witness for the amended C6 at a concrete state. -/
theorem authorsRemove_succeeds_witness :
    author1 ∈ [author1] ∧ author1.id = 1 ∧
    ∃ as', authorsRemove [author1] 1 = .ok as' ∧
      as'.length + 1 = ([author1] : List Author).length ∧
      ∀ x ∈ as', x ∈ [author1] :=
  ⟨by decide, by decide,
    authorsRemove_succeeds [author1] 1 author1 (by decide) (by decide)⟩

/-- C9 counterexample: on a three-book store with no filters, the paginated
listing the spec describes (page 1, limit 2) would return two items, but
the code's listing returns all three books — there is no pagination, total
count or total-pages computation in the source. -/
theorem booksFindAll_not_paginated_counterexample :
    (booksFindAllSpec st3 q0 1 2).items.length = 2 ∧
    (booksControllerFindAll st3 q0).length = 3 ∧
    booksControllerFindAll st3 q0 ≠ (booksFindAllSpec st3 q0 1 2).items := by
  refine ⟨by decide, by decide, by decide⟩

/-- C9 amended: the Book listing returns the full filtered list — no page,
no total count, no total-pages, no ordering clause — where the filter is
selected with the mutually-exclusive priority authorId, then genre, then
available === 'true', then none, as captured by `prioPred`. -/
theorem booksControllerFindAll_eq_filter (s : LibState) (q : BookListQuery) :
    booksControllerFindAll s q = s.books.filter (prioPred q) := by
  unfold booksControllerFindAll prioPred booksFindByAuthor booksFindByGenre
    booksFindAvailable booksFindAll
  by_cases h1 : q.authorId.isSome
  · simp [h1]
  · by_cases h2 : (q.genre.getD "" == "") = true
    · by_cases h3 : q.available == some "true"
      · simp [h1, h2, h3]
      · simp [h1, h2, h3]
    · simp [h1, h2]

theorem find?_id_replaceBook (bs : List Book) (nb : Book) :
    (replaceBook bs nb).find? (fun x => x.id == nb.id) =
      (bs.find? (fun x => x.id == nb.id)).map (fun _ => nb) := by
  induction bs with
  | nil => rfl
  | cons h t ih =>
    by_cases hh : (h.id == nb.id) = true
    · simp [replaceBook, hh, List.find?_cons]
    · simp [replaceBook, hh, List.find?_cons, ih]

theorem isbnClash_same_false (bs : List Book) (bk : Book) (hmem : bk ∈ bs)
    (hnodup : (bs.map Book.isbn).Nodup) (nb : Book)
    (hisbn : nb.isbn = bk.isbn) (hid : nb.id = bk.id) :
    isbnClash bs nb = false := by
  unfold isbnClash
  rw [List.any_eq_false]
  intro b hb
  simp only [Bool.and_eq_true, Bool.not_eq_true', beq_eq_false_iff_ne,
    beq_iff_eq, not_and]
  intro hbisbn
  have : b = bk := List.inj_on_of_nodup_map hnodup hb hmem (by rw [hbisbn, hisbn])
  simp [this, hid]

theorem booksUpdate_patch_ok (s : LibState) (bid : Nat) (p : UpdateBookDto)
    (hpisbn : p.isbn = none)
    (bk : Book) (hf : s.books.find? (fun b => b.id == bid) = some bk)
    (hnodup : (s.books.map Book.isbn).Nodup) :
    booksUpdate s bid p =
      (.ok (applyBookPatch bk p),
       { s with books := replaceBook s.books (applyBookPatch bk p) }) := by
  have htruthy : isbnTruthy p = false := by simp [isbnTruthy, hpisbn]
  have hclash : isbnClash s.books (applyBookPatch bk p) = false := by
    apply isbnClash_same_false s.books bk (List.mem_of_find?_eq_some hf) hnodup
    · simp [applyBookPatch, hpisbn]
    · rfl
  unfold booksUpdate
  rw [hf]
  simp [htruthy, dbSaveBook, hclash]

theorem borrow_ok_inv (s : LibState) (dto : CreateBorrowingDto) (now : Int)
    (br : Borrowing) (s' : LibState)
    (h : borrow s dto now = (.ok br, s')) :
    ∃ book v,
      s.books.find? (fun b => b.id == dto.bookId) = some book ∧
      book.available = true ∧
      br = newBorrowingRow s dto now ∧
      booksUpdate { s with borrowings := s.borrowings ++ [br],
                           nextBorrowingId := s.nextBorrowingId + 1 }
        book.id availableFalsePatch = (.ok v, s') := by
  unfold borrow at h
  split at h
  · simp at h
  · rename_i book hf
    split at h
    · simp at h
    · rename_i hav
      dsimp only at h
      split at h
      · rename_i v s2 hbu
        simp only [Prod.mk.injEq, Except.ok.injEq] at h
        obtain ⟨hbr, hs2⟩ := h
        refine ⟨book, v, hf, ?_, hbr.symm, ?_⟩
        · simpa using hav
        · rw [← hbr]
          rw [hs2] at hbu
          exact hbu
      · rename_i e s2 hbu
        simp at h

theorem booksUpdate_ok_inv (s : LibState) (id : Nat) (p : UpdateBookDto)
    (v : Book) (s' : LibState)
    (h : booksUpdate s id p = (.ok v, s')) :
    ∃ book, s.books.find? (fun b => b.id == id) = some book ∧
      v = applyBookPatch book p ∧
      isbnClash s.books v = false ∧
      s' = { s with books := replaceBook s.books v } := by
  unfold booksUpdate at h
  split at h
  · simp at h
  · rename_i book hf
    split at h
    · simp at h
    · rename_i hc
      dsimp only at h
      unfold dbSaveBook at h
      split at h
      · rename_i hclash
        simp at h
      · rename_i bs' hclash
        simp only [Prod.mk.injEq, Except.ok.injEq] at h
        obtain ⟨hv, hs'⟩ := h
        split at hclash
        · simp at hclash
        · rename_i hcl
          simp only [Except.ok.injEq] at hclash
          refine ⟨book, hf, hv.symm, ?_, ?_⟩
          · rw [hv] at hcl
            simpa using hcl
          · rw [← hs', ← hclash, hv]

theorem returnBook_ok_inv (s : LibState) (id : Nat) (now : Int)
    (br : Borrowing) (s' : LibState)
    (h : returnBook s id now = (.ok br, s')) :
    ∃ br0, s.borrowings.find? (fun x => x.id == id) = some br0 ∧
      br0.status ≠ BStatus.returned ∧
      br = { br0 with status := .returned, returnedDate := some now } ∧
      s' = (booksUpdate { s with borrowings := replaceBorrowing s.borrowings br }
              br0.bookId availableTruePatch).2 := by
  unfold returnBook at h
  split at h
  · simp at h
  · rename_i br0 hf
    split at h
    · simp at h
    · rename_i hst
      dsimp only at h
      simp only [Prod.mk.injEq, Except.ok.injEq] at h
      obtain ⟨hbr, hs'⟩ := h
      refine ⟨br0, hf, by simpa using hst, hbr.symm, ?_⟩
      rw [← hbr]
      exact hs'.symm

theorem applyBookPatch_id (b : Book) (p : UpdateBookDto) :
    (applyBookPatch b p).id = b.id := rfl

/-- C8: on every successful borrow, `dueDate = borrowedDate + borrowDays`
with `borrowDays` defaulting to 14 when unspecified (validity per the DTO
requires it to be at least 1 when present); in particular for
`borrowDays = 14` the difference is exactly 14 days, at date granularity
with a single clock reading and hence no time-of-day drift. -/
theorem borrow_due_date (s : LibState) (dto : CreateBorrowingDto) (now : Int)
    (br : Borrowing) (s' : LibState)
    (hv : createBorrowingDtoValid dto)
    (h : borrow s dto now = (.ok br, s')) :
    br.borrowedDate = now ∧
    br.dueDate = br.borrowedDate +
      (match dto.borrowDays with
       | none => (DEFAULT_BORROW_DAYS : Int)
       | some d => (d : Int)) ∧
    (dto.borrowDays = some 14 → br.dueDate - br.borrowedDate = 14) := by
  obtain ⟨book, v, hf, hav, hbr, hupd⟩ := borrow_ok_inv s dto now br s' h
  subst hbr
  obtain ⟨-, -, hmin⟩ := hv
  refine ⟨rfl, ?_, ?_⟩
  · show now + ((effectiveBorrowDays dto.borrowDays : Nat) : Int) = now + _
    cases hd : dto.borrowDays with
    | none => rfl
    | some d =>
      rw [hd] at hmin
      have h1 : 1 ≤ d := hmin
      have hne : d ≠ 0 := by omega
      simp [effectiveBorrowDays, hne]
  · intro h14
    show now + ((effectiveBorrowDays dto.borrowDays : Nat) : Int) - now = 14
    simp [h14, effectiveBorrowDays]

/-- Witness for C8: a concrete successful borrow with default days. -/
theorem borrow_due_date_witness :
    createBorrowingDtoValid brDto1 ∧
    borrow stFree brDto1 0 = (.ok brOpen1, stLoaned) ∧
    brOpen1.borrowedDate = 0 ∧
    brOpen1.dueDate = brOpen1.borrowedDate +
      (match brDto1.borrowDays with
       | none => (DEFAULT_BORROW_DAYS : Int)
       | some d => (d : Int)) :=
  ⟨by decide, by decide,
    (borrow_due_date stFree brDto1 0 brOpen1 stLoaned (by decide) (by decide)).1,
    (borrow_due_date stFree brDto1 0 brOpen1 stLoaned (by decide) (by decide)).2.1⟩

/-- C10: the core `borrow` performs no `borrowDays >= 1` check: a request
with `borrowDays = 0` is coalesced by `||` to the 14-day default, so the
borrow succeeds (on an existing, available book in a store with distinct
isbns) and the loan is due `borrowedDate + 14`. -/
theorem borrow_zero_days_defaults (s : LibState) (dto : CreateBorrowingDto)
    (now : Int) (book : Book)
    (h0 : dto.borrowDays = some 0)
    (hf : s.books.find? (fun b => b.id == dto.bookId) = some book)
    (hav : book.available = true)
    (hnodup : (s.books.map Book.isbn).Nodup) :
    ∃ br s', borrow s dto now = (.ok br, s') ∧
      br.dueDate = br.borrowedDate + (DEFAULT_BORROW_DAYS : Int) ∧
      br.status = .borrowed := by
  have hid : book.id = dto.bookId := by simpa using List.find?_some hf
  have hf' : s.books.find? (fun b => b.id == book.id) = some book := by
    simp only [hid]
    exact hf
  have heq : borrow s dto now =
      (.ok (newBorrowingRow s dto now),
       { books := replaceBook s.books (applyBookPatch book availableFalsePatch),
         borrowings := s.borrowings ++ [newBorrowingRow s dto now],
         nextBookId := s.nextBookId,
         nextBorrowingId := s.nextBorrowingId + 1 }) := by
    unfold borrow
    rw [hf]
    simp only [hav, Bool.not_true, Bool.false_eq_true, if_false]
    rw [booksUpdate_patch_ok
      { books := s.books,
        borrowings := s.borrowings ++ [newBorrowingRow s dto now],
        nextBookId := s.nextBookId,
        nextBorrowingId := s.nextBorrowingId + 1 }
      book.id availableFalsePatch rfl book hf' hnodup]
  refine ⟨newBorrowingRow s dto now, _, heq, ?_, rfl⟩
  simp [newBorrowingRow, h0, effectiveBorrowDays, DEFAULT_BORROW_DAYS]

/-- Witness for C10 at a concrete state. -/
theorem borrow_zero_days_defaults_witness :
    brDto0.borrowDays = some 0 ∧
    stFree.books.find? (fun b => b.id == brDto0.bookId) = some bk1 ∧
    bk1.available = true ∧
    (stFree.books.map Book.isbn).Nodup ∧
    ∃ br s', borrow stFree brDto0 0 = (.ok br, s') ∧
      br.dueDate = br.borrowedDate + (DEFAULT_BORROW_DAYS : Int) ∧
      br.status = .borrowed :=
  ⟨by decide, by decide, by decide, by decide,
    borrow_zero_days_defaults stFree brDto0 0 bk1 (by decide) (by decide)
      (by decide) (by decide)⟩

/-- C2: immediately after a successful `borrow`, the referenced book's
`available` flag is false; immediately after a successful `returnBook`, the
referenced book (when it still exists) has `available = true`. The store is
assumed to satisfy the storage-enforced distinct-isbn well-formedness. -/
theorem availability_coupling (s : LibState) (now : Int)
    (hnodup : (s.books.map Book.isbn).Nodup) :
    (∀ dto br s' b, borrow s dto now = (.ok br, s') →
        s'.books.find? (fun x => x.id == br.bookId) = some b →
        b.available = false) ∧
    (∀ id br s' b, returnBook s id now = (.ok br, s') →
        s'.books.find? (fun x => x.id == br.bookId) = some b →
        b.available = true) := by
  constructor
  · intro dto br s' b h hfind
    obtain ⟨book, v, hf, hav, hbr, hupd⟩ := borrow_ok_inv s dto now br s' h
    obtain ⟨book', hf', hv, hclash, hs'⟩ :=
      booksUpdate_ok_inv _ book.id availableFalsePatch v s' hupd
    have hbid : br.bookId = dto.bookId := by rw [hbr]; rfl
    have hid : book.id = dto.bookId := by simpa using List.find?_some hf
    have hid' : book'.id = book.id := by simpa using List.find?_some hf'
    have hvid : v.id = book'.id := by rw [hv]; rfl
    have hvav : v.available = false := by rw [hv]; rfl
    have hpred : br.bookId = v.id := by rw [hbid, ← hid, ← hid', hvid]
    subst hs'
    simp only [hpred] at hfind
    rw [find?_id_replaceBook] at hfind
    rcases ho : s.books.find? (fun x => x.id == v.id) with _ | x
    · rw [ho] at hfind
      simp at hfind
    · rw [ho] at hfind
      simp at hfind
      subst hfind
      exact hvav
  · intro id br s' b h hfind
    obtain ⟨br0, hf0, hst, hbr, hs'⟩ := returnBook_ok_inv s id now br s' h
    have hbid : br.bookId = br0.bookId := by rw [hbr]
    subst hs'
    cases hbook : s.books.find? (fun x => x.id == br0.bookId) with
    | none =>
      have hstate :
          (booksUpdate { s with borrowings := replaceBorrowing s.borrowings br }
            br0.bookId availableTruePatch).2 =
          { s with borrowings := replaceBorrowing s.borrowings br } := by
        unfold booksUpdate
        rw [show ({ s with borrowings := replaceBorrowing s.borrowings br} :
            LibState).books = s.books from rfl, hbook]
      rw [hstate] at hfind
      dsimp only at hfind
      simp only [hbid] at hfind
      rw [hbook] at hfind
      exact absurd hfind (by simp)
    | some bk =>
      have hupd := booksUpdate_patch_ok
        { s with borrowings := replaceBorrowing s.borrowings br }
        br0.bookId availableTruePatch rfl bk hbook hnodup
      rw [hupd] at hfind
      have hbkid : bk.id = br0.bookId := by simpa using List.find?_some hbook
      have hpred : br.bookId = (applyBookPatch bk availableTruePatch).id := by
        rw [hbid]
        show br0.bookId = bk.id
        exact hbkid.symm
      simp only [hpred] at hfind
      rw [find?_id_replaceBook] at hfind
      rcases ho : s.books.find?
          (fun x => x.id == (applyBookPatch bk availableTruePatch).id) with _ | x
      · rw [ho] at hfind
        simp at hfind
      · rw [ho] at hfind
        simp at hfind
        subst hfind
        rfl

/-- Witness for C2: concrete borrow then return on a one-book store. -/
theorem availability_coupling_witness :
    (stFree.books.map Book.isbn).Nodup ∧
    borrow stFree brDto1 0 = (.ok brOpen1, stLoaned) ∧
    stLoaned.books.find? (fun x => x.id == brOpen1.bookId) = some bk1Out ∧
    bk1Out.available = false ∧
    returnBook stLoaned 1 3 = (.ok brDone1, stAfterReturn) ∧
    stAfterReturn.books.find? (fun x => x.id == brDone1.bookId) = some bk1 ∧
    bk1.available = true :=
  ⟨by decide, by decide, by decide,
    (availability_coupling stFree 0 (by decide)).1 brDto1 brOpen1 stLoaned bk1Out
      (by decide) (by decide),
    by decide, by decide,
    (availability_coupling stLoaned 3 (by decide)).2 1 brDone1 stAfterReturn bk1
      (by decide) (by decide)⟩

/-! ### State characterizations of the operations -/

theorem booksCreate_state_cases (s : LibState) (dto : CreateBookDto) :
    (booksCreate s dto).2 = s ∨
    (s.books.any (fun b => b.isbn == dto.isbn) = false ∧
     (booksCreate s dto).2 =
       { s with books := s.books ++ [newBookRow s dto],
                nextBookId := s.nextBookId + 1 }) := by
  unfold booksCreate
  split
  · left; rfl
  · rename_i hany
    right
    have hany' : ∀ x ∈ s.books, ¬ x.isbn = dto.isbn := by simpa using hany
    have hclash : isbnClash s.books (newBookRow s dto) = false := by
      unfold isbnClash
      rw [List.any_eq_false]
      intro b hb
      simp only [newBookRow, Bool.and_eq_true, beq_iff_eq, Bool.not_eq_true',
        beq_eq_false_iff_ne, not_and]
      intro hisbn
      exact absurd hisbn (hany' b hb)
    refine ⟨by simpa using hany, ?_⟩
    dsimp only
    unfold dbInsertBook
    rw [if_neg (by simp [hclash])]

theorem booksUpdate_state_cases (s : LibState) (id : Nat) (p : UpdateBookDto) :
    (booksUpdate s id p).2 = s ∨
    ∃ book, s.books.find? (fun b => b.id == id) = some book ∧
      isbnClash s.books (applyBookPatch book p) = false ∧
      (booksUpdate s id p).2 =
        { s with books := replaceBook s.books (applyBookPatch book p) } := by
  unfold booksUpdate
  split
  · left; rfl
  · rename_i book hf
    split
    · left; rfl
    · dsimp only
      unfold dbSaveBook
      by_cases hclash : isbnClash s.books (applyBookPatch book p) = true
      · rw [if_pos hclash]
        left; rfl
      · rw [if_neg hclash]
        right
        exact ⟨book, hf, by simpa using hclash, rfl⟩

theorem booksRemove_state_cases (s : LibState) (id : Nat) :
    (booksRemove s id).2 = s ∨
    (booksRemove s id).2 = { s with books := removeFirstBook s.books id } := by
  unfold booksRemove
  split
  · left; rfl
  · right; rfl

theorem borrow_state_cases (s : LibState) (dto : CreateBorrowingDto) (now : Int) :
    (borrow s dto now).2 = s ∨
    ∃ book, s.books.find? (fun b => b.id == dto.bookId) = some book ∧
      book.available = true ∧
      (borrow s dto now).2 =
        (booksUpdate { s with borrowings := s.borrowings ++ [newBorrowingRow s dto now],
                              nextBorrowingId := s.nextBorrowingId + 1 }
          book.id availableFalsePatch).2 := by
  unfold borrow
  split
  · left; rfl
  · rename_i book hf
    split
    · left; rfl
    · rename_i hav
      dsimp only
      right
      refine ⟨book, hf, by simpa using hav, ?_⟩
      split
      · rename_i v s2 hbu
        rw [hbu]
      · rename_i e s2 hbu
        rw [hbu]

theorem returnBook_state_cases (s : LibState) (id : Nat) (now : Int) :
    (returnBook s id now).2 = s ∨
    ∃ br0, s.borrowings.find? (fun x => x.id == id) = some br0 ∧
      br0.status ≠ BStatus.returned ∧
      (returnBook s id now).2 =
        (booksUpdate { s with borrowings := replaceBorrowing s.borrowings { br0 with status := .returned, returnedDate := some now } }
          br0.bookId availableTruePatch).2 := by
  unfold returnBook
  split
  · left; rfl
  · rename_i br0 hf
    split
    · left; rfl
    · rename_i hst
      right
      exact ⟨br0, hf, by simpa using hst, rfl⟩

/-! ### List-level lemmas for the invariants -/

theorem replaceBook_map_id (bs : List Book) (nb : Book) :
    (replaceBook bs nb).map Book.id = bs.map Book.id := by
  induction bs with
  | nil => rfl
  | cons h t ih =>
    by_cases hh : (h.id == nb.id) = true
    · have hhid : h.id = nb.id := by simpa using hh
      simp [replaceBook, hh, hhid]
    · simp [replaceBook, hh, ih]

theorem mem_replaceBook (bs : List Book) (nb : Book) :
    ∀ b ∈ replaceBook bs nb, b = nb ∨ b ∈ bs := by
  induction bs with
  | nil => simp [replaceBook]
  | cons h t ih =>
    intro b hb
    by_cases hh : (h.id == nb.id) = true
    · simp [replaceBook, hh] at hb
      rcases hb with hb | hb
      · exact Or.inl hb
      · exact Or.inr (List.mem_cons_of_mem h hb)
    · simp only [replaceBook, hh, if_false, Bool.false_eq_true, List.mem_cons] at hb
      rcases hb with hb | hb
      · exact Or.inr (hb ▸ List.mem_cons_self h t)
      · rcases ih b hb with hx | hx
        · exact Or.inl hx
        · exact Or.inr (List.mem_cons_of_mem h hx)

theorem mem_replaceBook_nodup (bs : List Book) (nb : Book)
    (hnd : (bs.map Book.id).Nodup) :
    ∀ b ∈ replaceBook bs nb, b = nb ∨ (b ∈ bs ∧ b.id ≠ nb.id) := by
  induction bs with
  | nil => simp [replaceBook]
  | cons h t ih =>
    intro b hb
    simp only [List.map_cons, List.nodup_cons] at hnd
    by_cases hh : (h.id == nb.id) = true
    · simp only [replaceBook, hh, if_true, List.mem_cons] at hb
      rcases hb with hb | hb
      · exact Or.inl hb
      · right
        refine ⟨List.mem_cons_of_mem h hb, ?_⟩
        intro hbid
        have hhid : h.id = nb.id := by simpa using hh
        apply hnd.1
        rw [hhid, ← hbid]
        exact List.mem_map_of_mem Book.id hb
    · simp only [replaceBook, hh, if_false, Bool.false_eq_true, List.mem_cons] at hb
      rcases hb with hb | hb
      · right
        refine ⟨hb ▸ List.mem_cons_self h t, ?_⟩
        rw [hb]
        simpa using hh
      · rcases ih hnd.2 b hb with hx | hx
        · exact Or.inl hx
        · exact Or.inr ⟨List.mem_cons_of_mem h hx.1, hx.2⟩

theorem replaceBook_isbn_nodup (bs : List Book) (nb : Book)
    (hid : (bs.map Book.id).Nodup)
    (hcl : ∀ b ∈ bs, b.isbn = nb.isbn → b.id = nb.id)
    (hi : (bs.map Book.isbn).Nodup) :
    ((replaceBook bs nb).map Book.isbn).Nodup := by
  induction bs with
  | nil => simp [replaceBook]
  | cons h t ih =>
    simp only [List.map_cons, List.nodup_cons] at hid hi
    by_cases hh : (h.id == nb.id) = true
    · have hhid : h.id = nb.id := by simpa using hh
      simp only [replaceBook, hh, if_true, List.map_cons, List.nodup_cons]
      refine ⟨?_, hi.2⟩
      intro hmem
      obtain ⟨b, hb, hbisbn⟩ := List.mem_map.1 hmem
      have hbid : b.id = nb.id := hcl b (List.mem_cons_of_mem h hb) hbisbn
      apply hid.1
      rw [hhid, ← hbid]
      exact List.mem_map_of_mem Book.id hb
    · simp only [replaceBook, hh, if_false, Bool.false_eq_true, List.map_cons,
        List.nodup_cons]
      constructor
      · intro hmem
        obtain ⟨b, hb, hbisbn⟩ := List.mem_map.1 hmem
        rcases mem_replaceBook t nb b hb with hx | hx
        · have hisbn2 : h.isbn = nb.isbn := by
            rw [← hx]
            exact hbisbn.symm
          have hid2 : h.id = nb.id := hcl h (List.mem_cons_self h t) hisbn2
          simp [hid2] at hh
        · exact hi.1 (hbisbn ▸ List.mem_map_of_mem Book.isbn hx)
      · exact ih hid.2 (fun b hb => hcl b (List.mem_cons_of_mem h hb)) hi.2

theorem removeFirstBook_sublist (bs : List Book) (id : Nat) :
    (removeFirstBook bs id).Sublist bs := by
  induction bs with
  | nil => simp [removeFirstBook]
  | cons h t ih =>
    by_cases hh : (h.id == id) = true
    · simp [removeFirstBook, hh]
    · simp only [removeFirstBook, hh, if_false, Bool.false_eq_true]
      exact List.Sublist.cons₂ h ih

theorem openCount_cons (br : Borrowing) (brs : List Borrowing) (bid : Nat) :
    openCount (br :: brs) bid =
      openCount brs bid +
        (if (br.bookId == bid && isOpen br.status) = true then 1 else 0) := by
  by_cases h : (br.bookId == bid && isOpen br.status) = true
  · simp [openCount, List.filter_cons, h]
  · simp [openCount, List.filter_cons, h]

theorem openCount_append (l1 l2 : List Borrowing) (bid : Nat) :
    openCount (l1 ++ l2) bid = openCount l1 bid + openCount l2 bid := by
  simp [openCount, List.filter_append]

theorem openCount_eq_zero (brs : List Borrowing) (bid : Nat)
    (h : ∀ br ∈ brs, br.bookId ≠ bid) : openCount brs bid = 0 := by
  induction brs with
  | nil => rfl
  | cons hd t ih =>
    rw [openCount_cons]
    have h1 : (hd.bookId == bid) = false := by
      simpa using h hd (List.mem_cons_self hd t)
    simp [h1]
    exact ih (fun br hbr => h br (List.mem_cons_of_mem hd hbr))

theorem sweepOne_bookId (now : Int) (br : Borrowing) :
    (sweepOne now br).bookId = br.bookId := by
  unfold sweepOne
  split <;> rfl

theorem sweepOne_isOpen (now : Int) (br : Borrowing) :
    isOpen (sweepOne now br).status = isOpen br.status := by
  unfold sweepOne
  split
  · rename_i h
    have : br.status = BStatus.borrowed := by
      simp only [Bool.and_eq_true, beq_iff_eq] at h
      exact h.1
    rw [this]
    rfl
  · rfl

theorem openCount_map_sweep (now : Int) (brs : List Borrowing) (bid : Nat) :
    openCount (brs.map (sweepOne now)) bid = openCount brs bid := by
  induction brs with
  | nil => rfl
  | cons hd t ih =>
    simp only [List.map_cons]
    rw [openCount_cons, openCount_cons, ih, sweepOne_bookId, sweepOne_isOpen]

theorem mem_replaceBorrowing (brs : List Borrowing) (nb : Borrowing) :
    ∀ x ∈ replaceBorrowing brs nb, x = nb ∨ x ∈ brs := by
  induction brs with
  | nil => simp [replaceBorrowing]
  | cons h t ih =>
    intro x hx
    by_cases hh : (h.id == nb.id) = true
    · simp only [replaceBorrowing, hh, if_true, List.mem_cons] at hx
      rcases hx with hx | hx
      · exact Or.inl hx
      · exact Or.inr (List.mem_cons_of_mem h hx)
    · simp only [replaceBorrowing, hh, if_false, Bool.false_eq_true,
        List.mem_cons] at hx
      rcases hx with hx | hx
      · exact Or.inr (hx ▸ List.mem_cons_self h t)
      · rcases ih x hx with hy | hy
        · exact Or.inl hy
        · exact Or.inr (List.mem_cons_of_mem h hy)

theorem openCount_replace_closed_le (brs : List Borrowing) (upd : Borrowing)
    (hclosed : isOpen upd.status = false) (bid : Nat) :
    openCount (replaceBorrowing brs upd) bid ≤ openCount brs bid := by
  induction brs with
  | nil => simp [replaceBorrowing]
  | cons h t ih =>
    by_cases hh : (h.id == upd.id) = true
    · simp only [replaceBorrowing, hh, if_true]
      rw [openCount_cons, openCount_cons]
      have hz : (upd.bookId == bid && isOpen upd.status) = false := by
        simp [hclosed]
      simp only [hz, Bool.false_eq_true, if_false, Nat.add_zero]
      exact Nat.le_add_right _ _
    · simp only [replaceBorrowing, hh, if_false, Bool.false_eq_true]
      rw [openCount_cons, openCount_cons]
      omega

theorem openCount_replace_close (brs : List Borrowing) (upd br0 : Borrowing)
    (hf : brs.find? (fun x => x.id == upd.id) = some br0)
    (hopen : isOpen br0.status = true)
    (hbid : upd.bookId = br0.bookId)
    (hclosed : isOpen upd.status = false) :
    openCount (replaceBorrowing brs upd) br0.bookId + 1 =
      openCount brs br0.bookId := by
  induction brs with
  | nil => simp at hf
  | cons h t ih =>
    rw [List.find?_cons] at hf
    by_cases hh : (h.id == upd.id) = true
    · rw [hh] at hf
      have hhbr : h = br0 := by simpa using hf
      subst hhbr
      simp only [replaceBorrowing, hh, if_true]
      rw [openCount_cons, openCount_cons]
      simp [hclosed, hopen]
    · have hh' : (h.id == upd.id) = false := by simpa using hh
      rw [hh'] at hf
      have hf' : List.find? (fun x => x.id == upd.id) t = some br0 := hf
      simp only [replaceBorrowing, hh, if_false, Bool.false_eq_true]
      rw [openCount_cons, openCount_cons]
      have := ih hf'
      omega

theorem isbnClash_false_forall (bs : List Book) (nb : Book)
    (h : isbnClash bs nb = false) :
    ∀ b ∈ bs, b.isbn = nb.isbn → b.id = nb.id := by
  unfold isbnClash at h
  rw [List.any_eq_false] at h
  intro b hb hisbn
  have := h b hb
  simp [hisbn] at this
  exact this

theorem invBooks_booksUpdate (s : LibState) (id : Nat) (p : UpdateBookDto)
    (h : InvBooks s.books s.nextBookId) :
    InvBooks (booksUpdate s id p).2.books (booksUpdate s id p).2.nextBookId := by
  rcases booksUpdate_state_cases s id p with hc | ⟨book, hf, hclash, hc⟩
  · rw [hc]; exact h
  · rw [hc]
    obtain ⟨hid, hisbn, hlt⟩ := h
    refine ⟨?_, ?_, ?_⟩
    · rw [replaceBook_map_id]
      exact hid
    · exact replaceBook_isbn_nodup s.books _ hid
        (isbnClash_false_forall _ _ hclash) hisbn
    · intro b hb
      rcases mem_replaceBook s.books _ b hb with hx | hx
      · rw [hx, applyBookPatch_id]
        exact hlt book (List.mem_of_find?_eq_some hf)
      · exact hlt b hx

theorem invBooks_step (s : LibState) (op : Op)
    (h : InvBooks s.books s.nextBookId) :
    InvBooks (step s op).books (step s op).nextBookId := by
  cases op with
  | createBook dto =>
    show InvBooks (booksCreate s dto).2.books (booksCreate s dto).2.nextBookId
    rcases booksCreate_state_cases s dto with hc | ⟨hany, hc⟩
    · rw [hc]; exact h
    · rw [hc]
      obtain ⟨hid, hisbn, hlt⟩ := h
      refine ⟨?_, ?_, ?_⟩
      · simp only [List.map_append, List.map_cons, List.map_nil]
        rw [List.nodup_append]
        refine ⟨hid, List.nodup_singleton _, ?_⟩
        intro a ha
        obtain ⟨b, hb, hbid⟩ := List.mem_map.1 ha
        simp only [newBookRow, List.mem_singleton]
        intro hcontra
        rw [hcontra] at hbid
        exact absurd hbid (Nat.ne_of_lt (hlt b hb))
      · simp only [List.map_append, List.map_cons, List.map_nil]
        rw [List.nodup_append]
        refine ⟨hisbn, List.nodup_singleton _, ?_⟩
        intro a ha
        obtain ⟨b, hb, hbisbn⟩ := List.mem_map.1 ha
        simp only [newBookRow, List.mem_singleton]
        intro hcontra
        have := (List.any_eq_false.1 hany) b hb
        rw [hcontra] at hbisbn
        simp [hbisbn] at this
      · intro b hb
        rcases List.mem_append.1 hb with hx | hx
        · exact Nat.lt_succ_of_lt (hlt b hx)
        · rw [List.mem_singleton.1 hx]
          exact Nat.lt_succ_self _
  | updateBook id p =>
    exact invBooks_booksUpdate s id p h
  | deleteBook id =>
    show InvBooks (booksRemove s id).2.books (booksRemove s id).2.nextBookId
    rcases booksRemove_state_cases s id with hc | hc
    · rw [hc]; exact h
    · rw [hc]
      obtain ⟨hid, hisbn, hlt⟩ := h
      have hsub := removeFirstBook_sublist s.books id
      exact ⟨List.Nodup.sublist (hsub.map Book.id) hid,
        List.Nodup.sublist (hsub.map Book.isbn) hisbn,
        fun b hb => hlt b (hsub.subset hb)⟩
  | borrowOp dto now =>
    show InvBooks (borrow s dto now).2.books (borrow s dto now).2.nextBookId
    rcases borrow_state_cases s dto now with hc | ⟨book, hf, hav, hc⟩
    · rw [hc]; exact h
    · rw [hc]
      exact invBooks_booksUpdate _ book.id availableFalsePatch h
  | returnOp id now =>
    show InvBooks (returnBook s id now).2.books (returnBook s id now).2.nextBookId
    rcases returnBook_state_cases s id now with hc | ⟨br0, hf, hst, hc⟩
    · rw [hc]; exact h
    · rw [hc]
      exact invBooks_booksUpdate _ br0.bookId availableTruePatch h
  | sweepOp now =>
    exact h

theorem invBooks_foldl (ops : List Op) (s : LibState)
    (h : InvBooks s.books s.nextBookId) :
    InvBooks (ops.foldl step s).books (ops.foldl step s).nextBookId := by
  induction ops generalizing s with
  | nil => exact h
  | cons op t ih => exact ih (step s op) (invBooks_step s op h)

theorem invBooks_run (ops : List Op) :
    InvBooks (runOps ops).books (runOps ops).nextBookId :=
  invBooks_foldl ops initialState (by simp [InvBooks, initialState])

theorem invOpen_step (s : LibState) (op : Op)
    (hB : InvBooks s.books s.nextBookId)
    (hO : InvOpen s) (hK : opKeepsAvail op) :
    InvOpen (step s op) := by
  obtain ⟨hBid, hBisbn, hBlt⟩ := hB
  obtain ⟨hlt, hle, hav⟩ := hO
  cases op with
  | createBook dto =>
    show InvOpen (booksCreate s dto).2
    rcases booksCreate_state_cases s dto with hc | ⟨hany, hc⟩
    · rw [hc]; exact ⟨hlt, hle, hav⟩
    · rw [hc]
      have hzero : openCount s.borrowings (newBookRow s dto).id = 0 := by
        apply openCount_eq_zero
        intro br hbr
        exact Nat.ne_of_lt (hlt br hbr)
      refine ⟨?_, ?_, ?_⟩
      · intro br hbr
        exact Nat.lt_succ_of_lt (hlt br hbr)
      · intro b hb
        rcases List.mem_append.1 hb with hx | hx
        · exact hle b hx
        · rw [List.mem_singleton.1 hx, hzero]
          omega
      · intro b hb _
        rcases List.mem_append.1 hb with hx | hx
        · rename_i hbav
          exact hav b hx hbav
        · rw [List.mem_singleton.1 hx, hzero]
  | updateBook id p =>
    show InvOpen (booksUpdate s id p).2
    rcases booksUpdate_state_cases s id p with hc | ⟨book, hf, hclash, hc⟩
    · rw [hc]; exact ⟨hlt, hle, hav⟩
    · rw [hc]
      have hbook := List.mem_of_find?_eq_some hf
      refine ⟨hlt, ?_, ?_⟩
      · intro b hb
        rcases mem_replaceBook_nodup s.books _ hBid b hb with hx | ⟨hx, _⟩
        · rw [hx, applyBookPatch_id]
          exact hle book hbook
        · exact hle b hx
      · intro b hb hbav
        rcases mem_replaceBook_nodup s.books _ hBid b hb with hx | ⟨hx, _⟩
        · rw [hx, applyBookPatch_id]
          have hba : book.available = true := by
            rw [hx] at hbav
            cases hpa : p.available with
            | none => simpa [applyBookPatch, hpa] using hbav
            | some v =>
              cases v with
              | true => exact absurd hpa hK
              | false => simp [applyBookPatch, hpa] at hbav
          exact hav book hbook hba
        · exact hav b hx hbav
  | deleteBook id =>
    show InvOpen (booksRemove s id).2
    rcases booksRemove_state_cases s id with hc | hc
    · rw [hc]; exact ⟨hlt, hle, hav⟩
    · rw [hc]
      have hsub := removeFirstBook_sublist s.books id
      exact ⟨hlt, fun b hb => hle b (hsub.subset hb),
        fun b hb hbav => hav b (hsub.subset hb) hbav⟩
  | sweepOp now =>
    show InvOpen { s with borrowings := s.borrowings.map (sweepOne now) }
    refine ⟨?_, ?_, ?_⟩
    · intro br hbr
      obtain ⟨br0, hbr0, heq⟩ := List.mem_map.1 hbr
      rw [← heq, sweepOne_bookId]
      exact hlt br0 hbr0
    · intro b hb
      show openCount (s.borrowings.map (sweepOne now)) b.id ≤ 1
      rw [openCount_map_sweep]
      exact hle b hb
    · intro b hb hbav
      show openCount (s.borrowings.map (sweepOne now)) b.id = 0
      rw [openCount_map_sweep]
      exact hav b hb hbav
  | borrowOp dto now =>
    show InvOpen (borrow s dto now).2
    rcases borrow_state_cases s dto now with hc | ⟨book, hf, havb, hc⟩
    · rw [hc]; exact ⟨hlt, hle, hav⟩
    · have hbid : book.id = dto.bookId := by simpa using List.find?_some hf
      have hf' : s.books.find? (fun b => b.id == book.id) = some book := by
        simp only [hbid]
        exact hf
      have hupd := booksUpdate_patch_ok
        { s with borrowings := s.borrowings ++ [newBorrowingRow s dto now],
                 nextBorrowingId := s.nextBorrowingId + 1 }
        book.id availableFalsePatch rfl book hf' hBisbn
      rw [hc, hupd]
      have hbookmem := List.mem_of_find?_eq_some hf
      have hcount0 : openCount s.borrowings book.id = 0 := hav book hbookmem havb
      have hone : openCount [newBorrowingRow s dto now] book.id = 1 := by
        rw [show ([newBorrowingRow s dto now] : List Borrowing) =
          newBorrowingRow s dto now :: [] from rfl, openCount_cons]
        have : ((newBorrowingRow s dto now).bookId == book.id &&
            isOpen (newBorrowingRow s dto now).status) = true := by
          show (dto.bookId == book.id && true) = true
          simp [hbid]
        rw [this]
        rfl
      refine ⟨?_, ?_, ?_⟩
      · intro br hbr
        rcases List.mem_append.1 hbr with hx | hx
        · exact hlt br hx
        · rw [List.mem_singleton.1 hx]
          show dto.bookId < s.nextBookId
          rw [← hbid]
          exact hBlt book hbookmem
      · intro b hb
        rcases mem_replaceBook_nodup s.books _ hBid b hb with hx | ⟨hx, hxid⟩
        · rw [hx, applyBookPatch_id]
          show openCount (s.borrowings ++ [newBorrowingRow s dto now]) book.id ≤ 1
          rw [openCount_append, hcount0, hone]
        · show openCount (s.borrowings ++ [newBorrowingRow s dto now]) b.id ≤ 1
          rw [openCount_append]
          have h0 : openCount [newBorrowingRow s dto now] b.id = 0 := by
            apply openCount_eq_zero
            intro br hbr
            rw [List.mem_singleton.1 hbr]
            show dto.bookId ≠ b.id
            rw [← hbid]
            intro hcontra
            exact hxid (by rw [applyBookPatch_id, hcontra])
          rw [h0, Nat.add_zero]
          exact hle b hx
      · intro b hb hbav
        rcases mem_replaceBook_nodup s.books _ hBid b hb with hx | ⟨hx, hxid⟩
        · rw [hx] at hbav
          simp [applyBookPatch, availableFalsePatch] at hbav
        · show openCount (s.borrowings ++ [newBorrowingRow s dto now]) b.id = 0
          rw [openCount_append]
          have h0 : openCount [newBorrowingRow s dto now] b.id = 0 := by
            apply openCount_eq_zero
            intro br hbr
            rw [List.mem_singleton.1 hbr]
            show dto.bookId ≠ b.id
            rw [← hbid]
            intro hcontra
            exact hxid (by rw [applyBookPatch_id, hcontra])
          rw [h0, Nat.add_zero]
          exact hav b hx hbav
  | returnOp id now =>
    show InvOpen (returnBook s id now).2
    rcases returnBook_state_cases s id now with hc | ⟨br0, hf, hst, hc⟩
    · rw [hc]; exact ⟨hlt, hle, hav⟩
    · have hbr0mem := List.mem_of_find?_eq_some hf
      have hbr0id : br0.id = id := by simpa using List.find?_some hf
      have hopen0 : isOpen br0.status = true := by
        cases h0 : br0.status with
        | borrowed => rfl
        | overdue => rfl
        | returned => exact absurd h0 hst
      have hclosedU : isOpen ({ br0 with status := BStatus.returned, returnedDate := some now } : Borrowing).status = false := rfl
      cases hbook : s.books.find? (fun x => x.id == br0.bookId) with
      | none =>
        have hstate : (booksUpdate { s with borrowings := replaceBorrowing s.borrowings { br0 with status := .returned, returnedDate := some now } }
            br0.bookId availableTruePatch).2 =
            { s with borrowings := replaceBorrowing s.borrowings { br0 with status := .returned, returnedDate := some now } } := by
          unfold booksUpdate
          rw [show ({ s with borrowings := replaceBorrowing s.borrowings { br0 with status := .returned, returnedDate := some now } } : LibState).books = s.books from rfl, hbook]
        rw [hc, hstate]
        refine ⟨?_, ?_, ?_⟩
        · intro br hbr
          rcases mem_replaceBorrowing _ _ br hbr with hx | hx
          · rw [hx]
            exact hlt br0 hbr0mem
          · exact hlt br hx
        · intro b hb
          dsimp only
          have h1 := openCount_replace_closed_le s.borrowings
            { br0 with status := .returned, returnedDate := some now } hclosedU b.id
          have h2 := hle b hb
          omega
        · intro b hb hbav
          dsimp only
          have h1 := openCount_replace_closed_le s.borrowings
            { br0 with status := .returned, returnedDate := some now } hclosedU b.id
          have h2 := hav b hb hbav
          omega
      | some bk =>
        have hupd := booksUpdate_patch_ok
          { s with borrowings := replaceBorrowing s.borrowings { br0 with status := .returned, returnedDate := some now } }
          br0.bookId availableTruePatch rfl bk hbook hBisbn
        rw [hc, hupd]
        have hbkmem := List.mem_of_find?_eq_some hbook
        have hbkid : bk.id = br0.bookId := by simpa using List.find?_some hbook
        have hfind2 : s.borrowings.find? (fun x => x.id ==
            ({ br0 with status := BStatus.returned, returnedDate := some now } : Borrowing).id) = some br0 := by
          show s.borrowings.find? (fun x => x.id == br0.id) = some br0
          simp only [hbr0id]
          exact hf
        have hdec := openCount_replace_close s.borrowings
          { br0 with status := .returned, returnedDate := some now } br0
          hfind2 hopen0 rfl hclosedU
        refine ⟨?_, ?_, ?_⟩
        · intro br hbr
          rcases mem_replaceBorrowing _ _ br hbr with hx | hx
          · rw [hx]
            exact hlt br0 hbr0mem
          · exact hlt br hx
        · intro b hb
          dsimp only at hb ⊢
          rcases mem_replaceBook_nodup s.books _ hBid b hb with hx | ⟨hx, _⟩
          · rw [hx, applyBookPatch_id]
            have h1 := openCount_replace_closed_le s.borrowings
              { br0 with status := .returned, returnedDate := some now } hclosedU bk.id
            have h2 := hle bk hbkmem
            omega
          · have h1 := openCount_replace_closed_le s.borrowings
              { br0 with status := .returned, returnedDate := some now } hclosedU b.id
            have h2 := hle b hx
            omega
        · intro b hb hbav
          dsimp only at hb ⊢
          rcases mem_replaceBook_nodup s.books _ hBid b hb with hx | ⟨hx, _⟩
          · rw [hx, applyBookPatch_id, hbkid]
            have hle0 : openCount s.borrowings br0.bookId ≤ 1 := by
              rw [← hbkid]
              exact hle bk hbkmem
            omega
          · have h1 := openCount_replace_closed_le s.borrowings
              { br0 with status := .returned, returnedDate := some now } hclosedU b.id
            have h2 := hav b hx hbav
            omega

theorem invOpen_foldl (ops : List Op) (s : LibState)
    (hB : InvBooks s.books s.nextBookId) (hO : InvOpen s)
    (hK : ∀ op ∈ ops, opKeepsAvail op) :
    InvOpen (ops.foldl step s) := by
  induction ops generalizing s with
  | nil => exact hO
  | cons op t ih =>
    exact ih (step s op)
      (invBooks_step s op hB)
      (invOpen_step s op hB hO (hK op (List.mem_cons_self op t)))
      (fun o ho => hK o (List.mem_cons_of_mem op ho))

/-- C1 counterexample: create a book, borrow it, override `available` back
to true through the generic catalog update (one of the listed core
operations), borrow again — the single book of the resulting reachable
state has two open (BORROWED) borrowings at once. -/
theorem open_loan_override_counterexample :
    (runOps c1Ops).books.map Book.id = [1] ∧
    openCount (runOps c1Ops).borrowings 1 = 2 := by
  constructor
  · decide
  · decide

/-- C1 amended: over every sequence of the core operations whose catalog
updates never set `available` back to true, every book of the resulting
state has at most one open (BORROWED or OVERDUE) borrowing. -/
theorem at_most_one_open_loan (ops : List Op)
    (hK : ∀ op ∈ ops, opKeepsAvail op) :
    ∀ b ∈ (runOps ops).books, openCount (runOps ops).borrowings b.id ≤ 1 :=
  (invOpen_foldl ops initialState
    (by simp [InvBooks, initialState])
    (by simp [InvOpen, initialState])
    hK).2.1

/-- Witness for the amended C1: a concrete create/borrow/return/borrow
sequence with no availability override. -/
theorem at_most_one_open_loan_witness :
    (∀ op ∈ c1GoodOps, opKeepsAvail op) ∧
    ∀ b ∈ (runOps c1GoodOps).books,
      openCount (runOps c1GoodOps).borrowings b.id ≤ 1 :=
  ⟨by decide, at_most_one_open_loan c1GoodOps (by decide)⟩

/-- C5: (1) in every state reachable from the empty store by the core
operations the books' isbns are pairwise distinct — maintained by the
service-level duplicate checks together with the entity's unique isbn
column; (2) creating a book whose isbn equals an existing book's fails with
BadRequest and leaves the state (hence every existing record) unchanged;
(3) the same uniqueness check guards update: a patch carrying a (truthy)
isbn that belongs to a different existing book fails with BadRequest and
leaves the state unchanged. -/
theorem isbn_uniqueness :
    (∀ ops : List Op, ((runOps ops).books.map Book.isbn).Nodup) ∧
    (∀ s dto b, b ∈ s.books → b.isbn = dto.isbn →
      booksCreate s dto = (.error .badRequest, s)) ∧
    (∀ s id p book other, s.books.find? (fun x => x.id == id) = some book →
      other ∈ s.books → p.isbn = some other.isbn → other.isbn ≠ "" →
      other.id ≠ id → booksUpdate s id p = (.error .badRequest, s)) := by
  refine ⟨fun ops => (invBooks_run ops).2.1, ?_, ?_⟩
  · intro s dto b hb hisbn
    unfold booksCreate
    rw [if_pos]
    rw [List.any_eq_true]
    exact ⟨b, hb, by simp [hisbn]⟩
  · intro s id p book other hf hmem hpisbn hne hid
    have hcond : (isbnTruthy p &&
        s.books.any fun b => b.isbn == p.isbn.getD "" && !(b.id == id)) = true := by
      rw [Bool.and_eq_true]
      constructor
      · simp [isbnTruthy, hpisbn, hne]
      · rw [List.any_eq_true]
        exact ⟨other, hmem, by simp [hpisbn, hid]⟩
    unfold booksUpdate
    rw [hf]
    simp [hcond]

/-- Witness for C5 at concrete inputs. -/
theorem isbn_uniqueness_witness :
    ((runOps c1Ops).books.map Book.isbn).Nodup ∧
    (bk1 ∈ st3.books ∧ bk1.isbn = dupDto.isbn ∧
     booksCreate st3 dupDto = (.error .badRequest, st3)) ∧
    (st3.books.find? (fun x => x.id == 2) = some bk2 ∧ bk1 ∈ st3.books ∧
     dupPatch.isbn = some bk1.isbn ∧ bk1.isbn ≠ "" ∧ bk1.id ≠ 2 ∧
     booksUpdate st3 2 dupPatch = (.error .badRequest, st3)) :=
  ⟨isbn_uniqueness.1 c1Ops,
   ⟨by decide, by decide,
    isbn_uniqueness.2.1 st3 dupDto bk1 (by decide) (by decide)⟩,
   ⟨by decide, by decide, by decide, by decide, by decide,
    isbn_uniqueness.2.2 st3 2 dupPatch bk2 bk1 (by decide) (by decide)
      (by decide) (by decide) (by decide)⟩⟩
